import Mathlib

/-!
Verification of the `jaxrl_m/common.py` fragment of the HILP repository.

The file is a thin wrapper around a gradient-based model: an immutable
`TrainState` record (step counter, apply function, model definition,
parameter tree, optimizer transform, optimizer state), a `shard_batch`
helper that reshapes batches for multi-device execution, a `target_update`
helper performing a Polyak/EMA blend of two parameter trees, and an
`apply_loss_fn` that adds gradient diagnostics to an info dictionary.

Parameter trees (pytrees) are modelled as string-keyed nested dictionaries
whose leaves carry numeric payloads; a dictionary is represented as a
cons-spine (`node key value rest`), mirroring `jax.tree_util`'s
structure-preserving per-leaf maps.  Machine floats are modelled as exact
rationals (ℚ), with ℝ used where the code takes square roots
(`jnp.linalg.norm`).  Failures that Python raises (assertion errors,
attribute errors, `None` optimizers) are modelled with `Option`/`Except`.
-/

set_option autoImplicit false

namespace HILP

universe u v w

/-- A pytree with leaves of type `α`: either a leaf, or a string-keyed
dictionary represented as a cons-spine of key/subtree pairs. -/
inductive PyTree (α : Type u) where
  | leaf (x : α) : PyTree α
  | nil : PyTree α
  | node (key : String) (value : PyTree α) (rest : PyTree α) : PyTree α
  deriving DecidableEq

namespace PyTree

variable {α : Type u} {β : Type v} {γ : Type w}

/-- Model of `jax.tree_util.tree_map` with a single tree argument: apply `f` to every
leaf, preserving structure. -/
def map (f : α → β) : PyTree α → PyTree β
  | .leaf x => .leaf (f x)
  | .nil => .nil
  | .node k v r => .node k (map f v) (map f r)

/-- Model of `jax.tree_util.tree_map` with two tree arguments: apply `f` leafwise when
the two trees have the same structure (same constructors, same keys), and
fail (`none`) otherwise, as `tree_map` raises on mismatched structures. -/
def map2 (f : α → β → γ) : PyTree α → PyTree β → Option (PyTree γ)
  | .leaf x, .leaf y => some (.leaf (f x y))
  | .nil, .nil => some .nil
  | .node k v r, .node k' v' r' =>
    if k = k' then do
      let v2 ← map2 f v v'
      let r2 ← map2 f r r'
      some (.node k v2 r2)
    else none
  | _, _ => none

/-- Fallible `tree_map`: apply `f` to every leaf, propagating the first
failure (modelling a Python exception raised while mapping). -/
def mapE {ε : Type} (f : α → Except ε β) : PyTree α → Except ε (PyTree β)
  | .leaf x => (f x).map .leaf
  | .nil => .ok .nil
  | .node k v r => do
    let v2 ← mapE f v
    let r2 ← mapE f r
    .ok (.node k v2 r2)

/-- Model of `jax.tree_util.tree_leaves`: the leaves in traversal order. -/
def leaves : PyTree α → List α
  | .leaf x => [x]
  | .nil => []
  | .node _ v r => leaves v ++ leaves r

/-- Structural compatibility of two trees: same constructors and keys. -/
def sameStruct : PyTree α → PyTree β → Bool
  | .leaf _, .leaf _ => true
  | .nil, .nil => true
  | .node k v r, .node k' v' r' => (k == k') && sameStruct v v' && sameStruct r r'
  | _, _ => false

end PyTree

/-- A numeric array, as a shape tuple together with its flat data.
`jnp.reshape` rearranges the shape and keeps the flat data. -/
structure NDArray where
  shape : List Nat
  data : List ℚ
  deriving DecidableEq

/-- The per-leaf reshape inside `shard_batch`: asserts
`x.shape[0] % d == 0` with the source's message, then reshapes
`(n, ...)` to `(d, n // d, ...)`.  A 0-d leaf fails the `x.shape[0]`
indexing. -/
def shardReshapeLeaf (d : Nat) (x : NDArray) : Except String NDArray :=
  match x.shape with
  | [] => .error "IndexError: tuple index out of range"
  | n :: rest =>
    if n % d = 0 then .ok ⟨d :: n / d :: rest, x.data⟩
    else .error ("Batch size needs to be divisible by # devices, got " ++
      toString n ++ " and " ++ toString d)

/-- Model of `shard_batch(batch)` with `d = jax.local_device_count()`: maps the
asserting reshape over every leaf of the batch. -/
def shard_batch (d : Nat) (batch : PyTree NDArray) : Except String (PyTree NDArray) :=
  PyTree.mapE (shardReshapeLeaf d) batch

/-- Flattening the first two axes of an array: `(a, b, ...) -> (a*b, ...)`,
keeping the flat data. -/
def flattenFirstTwo (x : NDArray) : NDArray :=
  match x.shape with
  | a :: b :: rest => ⟨a * b :: rest, x.data⟩
  | _ => ⟨x.shape, x.data⟩

/-- An `optax.GradientTransformation`: an external object exposing
`init(params) -> state` and `update(grads, opt_state, params) ->
(updates, new_opt_state)`.  The wrapper passes `self.opt_state` (which is
`Optional`) straight through to `update`, so the state argument is
`Option S`. -/
structure GradientTransformation (A : Type u) (S : Type v) where
  init : PyTree A → S
  update : PyTree A → Option S → PyTree A → PyTree A × S

/-- Model of `optax.apply_updates(params, updates)`: leafwise `params + updates`;
fails when the two trees have mismatched structure. -/
def applyUpdates {A : Type u} [Add A] (params updates : PyTree A) :
    Option (PyTree A) :=
  PyTree.map2 (fun p u => p + u) params updates

/-- An external `flax.linen` model definition: an `apply` entry point taking
a variables dictionary, an input, and an optional method to run in place of
the default `__call__`, plus attribute lookup of named sub-methods
(`getattr(model_def, name)`). -/
structure ModelDef (A : Type u) (I M O : Type) where
  apply : (String → Option (PyTree A)) → I → Option M → O
  methods : String → Option M

/-- The `method` argument of `TrainState.__call__`: omitted (`None`), a
method name to look up on the model definition, or a callable. -/
inductive ModuleMethod (M : Type) where
  | default : ModuleMethod M
  | name (s : String) : ModuleMethod M
  | fn (f : M) : ModuleMethod M

/-- The `TrainState` record of `jaxrl_m/common.py`: step counter, apply
function, model definition, parameter tree, optional optimizer transform
and optional optimizer state. -/
structure TrainState (A : Type u) (S : Type v) (I M O : Type) where
  step : Nat
  apply_fn : (String → Option (PyTree A)) → I → Option M → O
  model_def : ModelDef A I M O
  params : PyTree A
  tx : Option (GradientTransformation A S)
  opt_state : Option S

namespace TrainState

variable {A : Type u} {S : Type v} {I M O : Type}

/-- Model of `TrainState.create(model_def, params, tx)`: builds the record with
`step = 1`, `apply_fn = model_def.apply`, and `opt_state = tx.init(params)`
when `tx` is given, `None` otherwise. -/
def create (model_def : ModelDef A I M O) (params : PyTree A)
    (tx : Option (GradientTransformation A S)) : TrainState A S I M O :=
  let opt_state : Option S :=
    match tx with
    | some t => some (t.init params)
    | none => none
  { step := 1
    apply_fn := model_def.apply
    model_def := model_def
    params := params
    tx := tx
    opt_state := opt_state }

/-- The variables dictionary built inside `TrainState.__call__`:
`variables = {"params": params}` (with `params` defaulting to the stored
ones), then `variables = {**variables, **extra_variables}` when
`extra_variables` is given — keys of `extra_variables` override. -/
def callVariables (s : TrainState A S I M O) (params : Option (PyTree A))
    (extra_variables : Option (String → Option (PyTree A))) :
    String → Option (PyTree A) :=
  let p : PyTree A :=
    match params with
    | none => s.params
    | some p => p
  let vars : String → Option (PyTree A) :=
    fun k => if k = "params" then some p else none
  match extra_variables with
  | none => vars
  | some ev => fun k =>
      match ev k with
      | some v => some v
      | none => vars k

/-- Model of `TrainState.__call__`: builds the variables dictionary, resolves
`method` (a string is looked up via `getattr` on the model definition and
fails when absent), then calls the stored apply function.  The result is
`none` exactly when the method name lookup fails. -/
def call (s : TrainState A S I M O) (x : I) (params : Option (PyTree A))
    (extra_variables : Option (String → Option (PyTree A)))
    (method : ModuleMethod M) : Option O :=
  let vars := s.callVariables params extra_variables
  match method with
  | .default => some (s.apply_fn vars x none)
  | .name nm =>
    match s.model_def.methods nm with
    | some f => some (s.apply_fn vars x (some f))
    | none => none
  | .fn f => some (s.apply_fn vars x (some f))

/-- Model of `TrainState.apply_gradients(grads)`: computes
`(updates, new_opt_state) = self.tx.update(grads, self.opt_state,
self.params)` and `new_params = optax.apply_updates(self.params, updates)`,
returning `self.replace(step = step + 1, params = new_params, opt_state =
new_opt_state)`.  Fails (`none`) when `tx` is `None` (attribute error on
`self.tx.update`) or when the updates tree does not match the parameter
tree. -/
def apply_gradients [Add A] (s : TrainState A S I M O) (grads : PyTree A) :
    Option (TrainState A S I M O) :=
  match s.tx with
  | none => none
  | some tx =>
    match applyUpdates s.params (tx.update grads s.opt_state s.params).1 with
    | none => none
    | some new_params =>
      some { s with
        step := s.step + 1
        params := new_params
        opt_state := some (tx.update grads s.opt_state s.params).2 }

end TrainState

/-- Model of `target_update(model, target_model, tau)`: blends the parameters
leafwise as `p * tau + tp * (1 - tau)` and returns
`target_model.replace(params = new_target_params)`; fails when the two
parameter trees have mismatched structure (`jax.tree_map` raises). -/
def target_update {A : Type u} {S : Type v} {I M O : Type}
    [Mul A] [Add A] [Sub A] [One A]
    (model target_model : TrainState A S I M O) (tau : A) :
    Option (TrainState A S I M O) :=
  (PyTree.map2 (fun p tp => p * tau + tp * (1 - tau))
      model.params target_model.params).map
    (fun new_target_params => { target_model with params := new_target_params })

/-- Model of `jnp.max` over a flat vector (the source only applies it to nonempty
arrays; the default for the empty vector is irrelevant junk). -/
def jnpMax (l : List ℚ) : ℚ := l.foldl max (l.headD 0)

/-- Model of `jnp.min` over a flat vector. -/
def jnpMin (l : List ℚ) : ℚ := l.foldl min (l.headD 0)

/-- The sum of squares of a flat vector. -/
def sumSq (l : List ℚ) : ℚ := (l.map (fun x => x * x)).sum

/-- Model of `jnp.linalg.norm` over a flat vector: the Euclidean norm, i.e. the
square root of the sum of squares. -/
noncomputable def jnpNorm (l : List ℚ) : ℝ := Real.sqrt ((sumSq l : ℚ) : ℝ)

/-- The `final_grad_max` value of `apply_loss_fn`: per-leaf `jnp.max`
(`grad_max = jax.tree_map(jnp.max, grads)`), the scalar leaves flattened
and concatenated, then `jnp.max` of the result. -/
def final_grad_max (g : PyTree (List ℚ)) : ℚ := jnpMax ((g.map jnpMax).leaves)

/-- The `final_grad_min` value of `apply_loss_fn`: min-of-per-leaf-mins. -/
def final_grad_min (g : PyTree (List ℚ)) : ℚ := jnpMin ((g.map jnpMin).leaves)

/-- The `final_grad_norm` value of `apply_loss_fn`: `jnp.linalg.norm` of the vector of
per-leaf `jnp.linalg.norm`s. -/
noncomputable def final_grad_norm (g : PyTree (List ℚ)) : ℝ :=
  Real.sqrt ((((g.map jnpNorm).leaves).map (fun x => x * x)).sum)

/-- The `info.update({"grad/max": ..., "grad/min": ..., "grad/norm": ...})`
step of `apply_loss_fn` when `has_aux` holds: the three diagnostic keys are
set from the (possibly cross-replica-averaged) gradient tree, all other
keys keep their values. -/
noncomputable def gradStatsUpdate (g : PyTree (List ℚ)) (info : String → Option ℝ) :
    String → Option ℝ :=
  fun k =>
    if k = "grad/max" then some ((final_grad_max g : ℚ) : ℝ)
    else if k = "grad/min" then some ((final_grad_min g : ℚ) : ℝ)
    else if k = "grad/norm" then some (final_grad_norm g)
    else info k

/-! Concrete instances used to exercise the theorems below.  The leaf type
is instantiated at ℤ (a subring of the floats the code manipulates) so that
the kernel can evaluate the arithmetic. -/

/-- A trivial external model definition over integer leaves, with a single
named sub-method `encode`. -/
def exampleModelDef : ModelDef ℤ Unit Unit Unit :=
  { apply := fun _ _ _ => ()
    methods := fun nm => if nm = "encode" then some () else none }

/-- The identity-update optimizer of the specification scenario:
`updates = -grads`, with trivial state. -/
def identityTx : GradientTransformation ℤ Unit :=
  { init := fun _ => ()
    update := fun grads _ _ => (grads.map (fun g => -g), ()) }

/-- The scenario parameters `params = {"w": 2.0}`. -/
def exampleParams : PyTree ℤ := .node "w" (.leaf 2) .nil

/-- The scenario gradients `grads = {"w": 1.0}`. -/
def exampleGrads : PyTree ℤ := .node "w" (.leaf 1) .nil

/-- The scenario's TrainState: freshly created with the identity-update
optimizer, so `step = 1`. -/
def exampleState : TrainState ℤ Unit Unit Unit Unit :=
  TrainState.create exampleModelDef exampleParams (some identityTx)

/-- A target-network TrainState with the same parameter structure. -/
def exampleTarget : TrainState ℤ Unit Unit Unit Unit :=
  TrainState.create exampleModelDef (.node "w" (.leaf 10) .nil) none

/-- A TrainState with no optimizer configured. -/
def exampleStateNoTx : TrainState ℤ Unit Unit Unit Unit :=
  TrainState.create exampleModelDef exampleParams none

/-- A concrete batch with one array leaf of shape `(4,)`. -/
def exampleBatch : PyTree NDArray :=
  .node "observations" (.leaf ⟨[4], [1, 2, 3, 5]⟩) .nil

/-- A concrete gradient tree with two nonempty array leaves. -/
def exampleGradTree : PyTree (List ℚ) :=
  .node "a" (.leaf [1, -3]) (.node "b" (.leaf [2]) .nil)

/-- The scenario's TrainState after one gradient step: `step = 2`,
`params = {"w": 1.0}`. -/
def exampleStepped : TrainState ℤ Unit Unit Unit Unit :=
  { exampleState with
    step := 2
    params := .node "w" (.leaf 1) .nil
    opt_state := some () }

/-- An extra-variables dictionary that itself binds the key `"params"`. -/
def exampleExtraVars : String → Option (PyTree ℤ) :=
  fun k => if k = "params" then some (.leaf 5) else none

/-- The TrainStates reachable through `create` followed by any sequence of
successful `apply_gradients` calls. -/
inductive Reachable {A : Type u} {S : Type v} {I M O : Type} [Add A] :
    TrainState A S I M O → Prop where
  | create (model_def : ModelDef A I M O) (params : PyTree A)
      (tx : Option (GradientTransformation A S)) :
      Reachable (TrainState.create model_def params tx)
  | step (s s' : TrainState A S I M O) (grads : PyTree A) :
      Reachable s → s.apply_gradients grads = some s' → Reachable s'

namespace PyTree

variable {α : Type u} {β : Type v} {γ : Type w}

@[simp] theorem map_leaf (f : α → β) (x : α) : map f (.leaf x) = .leaf (f x) := rfl

@[simp] theorem map_nil (f : α → β) : map f (.nil : PyTree α) = .nil := rfl

@[simp] theorem map_node (f : α → β) (k : String) (v r : PyTree α) :
    map f (.node k v r) = .node k (map f v) (map f r) := rfl

@[simp] theorem leaves_map (f : α → β) (t : PyTree α) :
    (map f t).leaves = t.leaves.map f := by
  induction t with
  | leaf x => rfl
  | nil => rfl
  | node k v r ihv ihr => simp [map, leaves, ihv, ihr]

theorem map_map {δ : Type} (f : α → β) (g : β → δ) (t : PyTree α) :
    map g (map f t) = map (fun x => g (f x)) t := by
  induction t with
  | leaf x => rfl
  | nil => rfl
  | node k v r ihv ihr => simp [map, ihv, ihr]

theorem map_congr_leaves (f : α → α) (t : PyTree α)
    (h : ∀ x ∈ t.leaves, f x = x) : map f t = t := by
  induction t with
  | leaf x => simp [map, h x (by simp [leaves])]
  | nil => rfl
  | node k v r ihv ihr =>
    have hv : ∀ x ∈ v.leaves, f x = x := fun x hx => h x (by simp [leaves, hx])
    have hr : ∀ x ∈ r.leaves, f x = x := fun x hx => h x (by simp [leaves, hx])
    simp [map, ihv hv, ihr hr]

theorem map2_congr (f g : α → β → γ) (a : PyTree α) (b : PyTree β)
    (h : ∀ x y, f x y = g x y) : map2 f a b = map2 g a b := by
  induction a generalizing b with
  | leaf x => cases b <;> simp [map2, h]
  | nil => cases b <;> simp [map2]
  | node k v r ihv ihr =>
    cases b with
    | leaf y => simp [map2]
    | nil => simp [map2]
    | node k' v' r' => simp [map2, ihv, ihr]

theorem map2_isSome_of_sameStruct (f : α → β → γ) (a : PyTree α) (b : PyTree β)
    (h : sameStruct a b = true) : ∃ c, map2 f a b = some c := by
  induction a generalizing b with
  | leaf x => cases b <;> simp_all [sameStruct, map2]
  | nil => cases b <;> simp_all [sameStruct, map2]
  | node k v r ihv ihr =>
    cases b with
    | leaf y => simp_all [sameStruct]
    | nil => simp_all [sameStruct]
    | node k' v' r' =>
      simp only [sameStruct, Bool.and_eq_true, beq_iff_eq] at h
      obtain ⟨⟨hk, hv⟩, hr⟩ := h
      obtain ⟨cv, hcv⟩ := ihv v' hv
      obtain ⟨cr, hcr⟩ := ihr r' hr
      exact ⟨.node k cv cr, by simp [map2, hk, hcv, hcr]⟩

theorem map2_fst (a : PyTree α) (b : PyTree β)
    (h : sameStruct a b = true) : map2 (fun x _ => x) a b = some a := by
  induction a generalizing b with
  | leaf x => cases b <;> simp_all [sameStruct, map2]
  | nil => cases b <;> simp_all [sameStruct, map2]
  | node k v r ihv ihr =>
    cases b with
    | leaf y => simp_all [sameStruct]
    | nil => simp_all [sameStruct]
    | node k' v' r' =>
      simp only [sameStruct, Bool.and_eq_true, beq_iff_eq] at h
      obtain ⟨⟨hk, hv⟩, hr⟩ := h
      simp [map2, hk, ihv v' hv, ihr r' hr]

theorem map2_snd (a : PyTree α) (b : PyTree β)
    (h : sameStruct a b = true) : map2 (fun _ y => y) a b = some b := by
  induction a generalizing b with
  | leaf x => cases b <;> simp_all [sameStruct, map2]
  | nil => cases b <;> simp_all [sameStruct, map2]
  | node k v r ihv ihr =>
    cases b with
    | leaf y => simp_all [sameStruct]
    | nil => simp_all [sameStruct]
    | node k' v' r' =>
      simp only [sameStruct, Bool.and_eq_true, beq_iff_eq] at h
      obtain ⟨⟨hk, hv⟩, hr⟩ := h
      simp [map2, hk, ihv v' hv, ihr r' hr]

theorem mapE_ok_of_leaves {ε : Type} (f : α → Except ε β) (g : α → β) (t : PyTree α)
    (h : ∀ x ∈ t.leaves, f x = .ok (g x)) : mapE f t = .ok (map g t) := by
  induction t with
  | leaf x => simp [mapE, map, h x (by simp [leaves]), Except.map]
  | nil => rfl
  | node k v r ihv ihr =>
    have hv : ∀ x ∈ v.leaves, f x = .ok (g x) := fun x hx => h x (by simp [leaves, hx])
    have hr : ∀ x ∈ r.leaves, f x = .ok (g x) := fun x hx => h x (by simp [leaves, hx])
    simp [mapE, map, ihv hv, ihr hr, Bind.bind, Except.bind]

theorem mapE_ok_of_no_leaves {ε : Type} (f : α → Except ε β) (t : PyTree α)
    (h : t.leaves = []) : ∃ t', mapE f t = .ok t' := by
  induction t with
  | leaf x => simp [leaves] at h
  | nil => exact ⟨.nil, rfl⟩
  | node k v r ihv ihr =>
    simp only [leaves, List.append_eq_nil] at h
    obtain ⟨v', hv'⟩ := ihv h.1
    obtain ⟨r', hr'⟩ := ihr h.2
    exact ⟨.node k v' r', by simp [mapE, hv', hr', Bind.bind, Except.bind]⟩

theorem mapE_error_of_leaves {ε : Type} (f : α → Except ε β) (e : ε) (t : PyTree α)
    (h : ∀ x ∈ t.leaves, f x = .error e) (hne : t.leaves ≠ []) :
    mapE f t = .error e := by
  induction t with
  | leaf x => simp [mapE, h x (by simp [leaves]), Except.map]
  | nil => simp [leaves] at hne
  | node k v r ihv ihr =>
    by_cases hv : v.leaves = []
    · obtain ⟨v', hv'⟩ := mapE_ok_of_no_leaves f v hv
      have hrne : r.leaves ≠ [] := by
        intro hr0
        exact hne (by simp [leaves, hv, hr0])
      have hr := ihr (fun x hx => h x (by simp [leaves, hx])) hrne
      simp [mapE, hv', hr, Bind.bind, Except.bind]
    · have hverr := ihv (fun x hx => h x (by simp [leaves, hx])) hv
      simp [mapE, hverr, Bind.bind, Except.bind]

end PyTree

section FoldOrder

variable {α : Type u} [LinearOrder α]

theorem le_foldl_max (l : List α) (a : α) : a ≤ l.foldl max a := by
  induction l generalizing a with
  | nil => simp
  | cons x xs ih => exact le_trans (le_max_left a x) (ih (max a x))

theorem mem_le_foldl_max (l : List α) (a x : α) (hx : x ∈ l) :
    x ≤ l.foldl max a := by
  induction l generalizing a with
  | nil => cases hx
  | cons y ys ih =>
    rcases List.mem_cons.1 hx with h | h
    · subst h
      exact le_trans (le_max_right a x) (le_foldl_max ys (max a x))
    · exact ih (max a y) h

theorem foldl_min_le (l : List α) (a : α) : l.foldl min a ≤ a := by
  induction l generalizing a with
  | nil => simp
  | cons x xs ih => exact le_trans (ih (min a x)) (min_le_left a x)

theorem foldl_min_le_mem (l : List α) (a x : α) (hx : x ∈ l) :
    l.foldl min a ≤ x := by
  induction l generalizing a with
  | nil => cases hx
  | cons y ys ih =>
    rcases List.mem_cons.1 hx with h | h
    · subst h
      exact le_trans (foldl_min_le ys (min a x)) (min_le_right a x)
    · exact ih (min a y) h

end FoldOrder

theorem le_jnpMax (l : List ℚ) (x : ℚ) (hx : x ∈ l) : x ≤ jnpMax l :=
  mem_le_foldl_max l (l.headD 0) x hx

theorem jnpMin_le (l : List ℚ) (x : ℚ) (hx : x ∈ l) : jnpMin l ≤ x :=
  foldl_min_le_mem l (l.headD 0) x hx

theorem jnpMin_le_jnpMax (l : List ℚ) : jnpMin l ≤ jnpMax l := by
  cases l with
  | nil => exact le_refl _
  | cons x xs =>
    exact le_trans (jnpMin_le (x :: xs) x (by simp)) (le_jnpMax (x :: xs) x (by simp))

/-- Inversion of a successful `apply_gradients` call: the optimizer was
present, the updates applied cleanly, and the result is the `replace`d
record. -/
theorem apply_gradients_inv {A : Type u} {S : Type v} {I M O : Type} [Add A]
    {s s' : TrainState A S I M O} {grads : PyTree A}
    (h : s.apply_gradients grads = some s') :
    ∃ tx new_params, s.tx = some tx ∧
      applyUpdates s.params (tx.update grads s.opt_state s.params).1 = some new_params ∧
      s' = { s with
        step := s.step + 1
        params := new_params
        opt_state := some (tx.update grads s.opt_state s.params).2 } := by
  unfold TrainState.apply_gradients at h
  split at h
  · cases h
  next tx htx =>
    split at h
    · cases h
    next np happ =>
      exact ⟨tx, np, htx, happ, (Option.some.inj h).symm⟩

/-- C2: `TrainState.create` always returns an instance with `step = 1`, and
with `opt_state = tx.init(params)` when `tx` is given and `None` when `tx`
is absent. -/
theorem create_step_one_opt_state {A : Type u} {S : Type v} {I M O : Type}
    (model_def : ModelDef A I M O) (params : PyTree A)
    (tx : Option (GradientTransformation A S)) :
    (TrainState.create model_def params tx).step = 1 ∧
    (TrainState.create model_def params tx).opt_state
      = tx.map (fun t => t.init params) := by
  refine ⟨rfl, ?_⟩
  cases tx <;> rfl

/-- C1: on a `TrainState` holding an optimizer `tx`, `apply_gradients`
computes `(updates, new_opt_state) = tx.update(grads, opt_state, params)`
and returns a new TrainState whose `params` is the result of applying the
first component to the parameters, whose `opt_state` is the second
component, and whose `step` is the old step plus one. -/
theorem apply_gradients_spec {A : Type u} {S : Type v} {I M O : Type} [Add A]
    (s : TrainState A S I M O) (tx : GradientTransformation A S)
    (grads new_params : PyTree A)
    (htx : s.tx = some tx)
    (_hgrads : PyTree.sameStruct grads s.params = true)
    (hupd : applyUpdates s.params (tx.update grads s.opt_state s.params).1
      = some new_params) :
    s.apply_gradients grads = some { s with
      step := s.step + 1
      params := new_params
      opt_state := some (tx.update grads s.opt_state s.params).2 } := by
  unfold TrainState.apply_gradients
  rw [htx]
  simp [hupd]

/-- C1 witness: the scenario `params = {"w": 2.0}`, identity-update
optimizer (`updates = -grads`), `grads = {"w": 1.0}`: the result has
`params = {"w": 1.0}` and `step = 2`. -/
theorem apply_gradients_spec_witness :
    exampleState.tx = some identityTx ∧
    PyTree.sameStruct exampleGrads exampleState.params = true ∧
    applyUpdates exampleState.params
      (identityTx.update exampleGrads exampleState.opt_state exampleState.params).1
      = some (PyTree.node "w" (.leaf 1) .nil) ∧
    exampleState.apply_gradients exampleGrads = some { exampleState with
      step := 2
      params := PyTree.node "w" (.leaf 1) .nil
      opt_state := some (identityTx.update exampleGrads exampleState.opt_state
        exampleState.params).2 } :=
  ⟨rfl, by decide, by decide,
    apply_gradients_spec exampleState identityTx exampleGrads
      (PyTree.node "w" (.leaf 1) .nil) rfl (by decide) (by decide)⟩

/-- C7: a successful `apply_gradients` produces a new instance in which
every field other than `step`, `params` and `opt_state` — in particular
`apply_fn`, `model_def` and `tx` — is unchanged, and `step` grows by
exactly one; the original record is never mutated (the embedding is a pure
value, so the input `s` is untouched by construction). -/
theorem apply_gradients_frame {A : Type u} {S : Type v} {I M O : Type} [Add A]
    (s s' : TrainState A S I M O) (grads : PyTree A)
    (h : s.apply_gradients grads = some s') :
    s'.step = s.step + 1 ∧
    s'.apply_fn = s.apply_fn ∧
    s'.model_def = s.model_def ∧
    s'.tx = s.tx := by
  obtain ⟨tx, np, htx, happ, rfl⟩ := apply_gradients_inv h
  exact ⟨rfl, rfl, rfl, rfl⟩

/-- C7 witness: the scenario step leaves `apply_fn`, `model_def` and `tx`
unchanged. -/
theorem apply_gradients_frame_witness :
    exampleState.apply_gradients exampleGrads = some exampleStepped ∧
    (exampleStepped.step = exampleState.step + 1 ∧
     exampleStepped.apply_fn = exampleState.apply_fn ∧
     exampleStepped.model_def = exampleState.model_def ∧
     exampleStepped.tx = exampleState.tx) :=
  ⟨rfl, apply_gradients_frame exampleState exampleStepped exampleGrads rfl⟩

/-- C8: with no optimizer configured (`tx = None`), `apply_gradients` fails
for every gradient tree, producing no new state; the original instance is
unchanged by the failed call since the embedding is a pure value. -/
theorem apply_gradients_no_tx {A : Type u} {S : Type v} {I M O : Type} [Add A]
    (s : TrainState A S I M O) (h : s.tx = none) (grads : PyTree A) :
    s.apply_gradients grads = none := by
  unfold TrainState.apply_gradients
  rw [h]

/-- C8 witness: a concrete optimizerless TrainState rejects a gradient
application. -/
theorem apply_gradients_no_tx_witness :
    exampleStateNoTx.tx = none ∧
    exampleStateNoTx.apply_gradients exampleGrads = none :=
  ⟨rfl, apply_gradients_no_tx exampleStateNoTx rfl exampleGrads⟩

/-- C6: every TrainState reachable through `create` followed by any
sequence of `apply_gradients` calls satisfies: `opt_state` is `None` if and
only if `tx` is `None`. -/
theorem opt_state_none_iff_tx_none {A : Type u} {S : Type v} {I M O : Type}
    [Add A] (s : TrainState A S I M O) (h : Reachable s) :
    s.opt_state = none ↔ s.tx = none := by
  induction h with
  | create model_def params tx => cases tx <;> simp [TrainState.create]
  | step s s' grads hs heq ih =>
    obtain ⟨tx, np, htx, happ, rfl⟩ := apply_gradients_inv heq
    simp [htx]

/-- C6 witness: the invariant at a freshly created state with an
optimizer. -/
theorem opt_state_none_iff_tx_none_witness :
    Reachable exampleState ∧
    (exampleState.opt_state = none ↔ exampleState.tx = none) :=
  ⟨Reachable.create exampleModelDef exampleParams (some identityTx),
    opt_state_none_iff_tx_none exampleState
      (Reachable.create exampleModelDef exampleParams (some identityTx))⟩

/-- C3: `target_update` returns a TrainState equal to `target_model` except
that `params` is replaced by the leafwise blend
`p * tau + tp * (1 - tau)`; with `tau = 1` the new parameters are the
source's, with `tau = 0` they are the target's own, and no other field of
the target changes. -/
theorem target_update_spec {A : Type u} {S : Type v} {I M O : Type}
    [CommRing A] (model target_model : TrainState A S I M O) (tau : A)
    (h : PyTree.sameStruct model.params target_model.params = true) :
    ∃ t', target_update model target_model tau = some t' ∧
      PyTree.map2 (fun p tp => p * tau + tp * (1 - tau))
        model.params target_model.params = some t'.params ∧
      t'.step = target_model.step ∧
      t'.apply_fn = target_model.apply_fn ∧
      t'.model_def = target_model.model_def ∧
      t'.tx = target_model.tx ∧
      t'.opt_state = target_model.opt_state ∧
      (tau = 1 → t'.params = model.params) ∧
      (tau = 0 → t'.params = target_model.params) := by
  obtain ⟨c, hc⟩ := PyTree.map2_isSome_of_sameStruct
    (fun p tp => p * tau + tp * (1 - tau)) model.params target_model.params h
  refine ⟨{ target_model with params := c }, ?_, ?_, rfl, rfl, rfl, rfl, rfl, ?_, ?_⟩
  · simp [target_update, hc]
  · simpa using hc
  · rintro rfl
    have h1 : PyTree.map2 (fun p tp => p * (1 : A) + tp * (1 - 1))
        model.params target_model.params
        = PyTree.map2 (fun p _ => p) model.params target_model.params :=
      PyTree.map2_congr _ _ _ _ (fun x y => by ring)
    rw [h1, PyTree.map2_fst _ _ h] at hc
    simpa using (Option.some.inj hc).symm
  · rintro rfl
    have h0 : PyTree.map2 (fun p tp => p * (0 : A) + tp * (1 - 0))
        model.params target_model.params
        = PyTree.map2 (fun _ tp => tp) model.params target_model.params :=
      PyTree.map2_congr _ _ _ _ (fun x y => by ring)
    rw [h0, PyTree.map2_snd _ _ h] at hc
    simpa using (Option.some.inj hc).symm

/-- C3 witness: a concrete blend with `tau = 1` on matching one-leaf
parameter trees. -/
theorem target_update_spec_witness :
    PyTree.sameStruct exampleState.params exampleTarget.params = true ∧
    (∃ t', target_update exampleState exampleTarget (1 : ℤ) = some t' ∧
      PyTree.map2 (fun p tp => p * (1 : ℤ) + tp * (1 - 1))
        exampleState.params exampleTarget.params = some t'.params ∧
      t'.step = exampleTarget.step ∧
      t'.apply_fn = exampleTarget.apply_fn ∧
      t'.model_def = exampleTarget.model_def ∧
      t'.tx = exampleTarget.tx ∧
      t'.opt_state = exampleTarget.opt_state ∧
      ((1 : ℤ) = 1 → t'.params = exampleState.params) ∧
      ((1 : ℤ) = 0 → t'.params = exampleTarget.params)) :=
  ⟨by decide, target_update_spec exampleState exampleTarget 1 (by decide)⟩

/-- C5: `__call__` with `params` omitted evaluates the stored apply
function on `{"params": self.params}` shallowly merged with
`extra_variables` (caller-supplied keys override/extend); a string `method`
resolves to the model definition's attribute of that name and produces the
same result as passing that callable directly; a callable is used as is;
an omitted method uses the model definition's default call behavior. -/
theorem call_method_dispatch {A : Type u} {S : Type v} {I M O : Type}
    (s : TrainState A S I M O) (x : I)
    (ev : Option (String → Option (PyTree A))) (nm : String) (f : M)
    (hf : s.model_def.methods nm = some f) :
    s.call x none ev (.name nm)
      = some (s.apply_fn (s.callVariables none ev) x (some f)) ∧
    s.call x none ev (.name nm) = s.call x none ev (.fn f) ∧
    s.call x none ev (.fn f)
      = some (s.apply_fn (s.callVariables none ev) x (some f)) ∧
    s.call x none ev .default
      = some (s.apply_fn (s.callVariables none ev) x none) ∧
    s.callVariables none none
      = (fun k => if k = "params" then some s.params else none) ∧
    (∀ e, ev = some e → ∀ k, s.callVariables none (some e) k
      = (e k).elim (if k = "params" then some s.params else none) some) := by
  refine ⟨?_, ?_, rfl, rfl, rfl, ?_⟩
  · simp [TrainState.call, hf]
  · simp [TrainState.call, hf]
  · intro e _ k
    cases hek : e k <;> simp [TrainState.callVariables, hek]

/-- C5 witness: dispatching to the named method `encode` on a concrete
model definition. -/
theorem call_method_dispatch_witness :
    exampleState.model_def.methods "encode" = some () ∧
    (exampleState.call () none none (.name "encode")
      = some (exampleState.apply_fn
          (exampleState.callVariables none none) () (some ())) ∧
    exampleState.call () none none (.name "encode")
      = exampleState.call () none none (.fn ()) ∧
    exampleState.call () none none (.fn ())
      = some (exampleState.apply_fn
          (exampleState.callVariables none none) () (some ())) ∧
    exampleState.call () none none .default
      = some (exampleState.apply_fn
          (exampleState.callVariables none none) () none) ∧
    exampleState.callVariables none none
      = (fun k => if k = "params" then some exampleState.params else none) ∧
    (∀ e, (none : Option (String → Option (PyTree ℤ))) = some e →
      ∀ k, exampleState.callVariables none (some e) k
      = (e k).elim (if k = "params" then some exampleState.params else none)
          some)) :=
  ⟨rfl, call_method_dispatch exampleState () none "encode" () rfl⟩

/-- C10: when `extra_variables` itself contains the key `"params"`, the
merged variables map `"params"` to that value, silently overriding both the
caller-supplied `params` argument and the stored `self.params` in the call
to the apply function. -/
theorem extra_variables_params_override {A : Type u} {S : Type v} {I M O : Type}
    (s : TrainState A S I M O) (x : I) (p : Option (PyTree A))
    (e : String → Option (PyTree A)) (v : PyTree A)
    (h : e "params" = some v) :
    s.callVariables p (some e) "params" = some v ∧
    s.call x p (some e) .default
      = some (s.apply_fn (s.callVariables p (some e)) x none) := by
  constructor
  · simp [TrainState.callVariables, h]
  · rfl

/-- C10 witness: a concrete extra-variables dictionary binding `"params"`
overrides both the explicit `params` argument and the stored parameters. -/
theorem extra_variables_params_override_witness :
    exampleExtraVars "params" = some (.leaf 5) ∧
    (exampleState.callVariables (some exampleParams) (some exampleExtraVars)
        "params" = some (.leaf 5) ∧
    exampleState.call () (some exampleParams) (some exampleExtraVars) .default
      = some (exampleState.apply_fn
          (exampleState.callVariables (some exampleParams)
            (some exampleExtraVars)) () none)) :=
  ⟨rfl, extra_variables_params_override exampleState () (some exampleParams)
    exampleExtraVars (.leaf 5) rfl⟩

/-- C4: on `d` devices, a batch whose array leaves all have leading
dimension `N` is sharded leafwise from `(N, ...)` to `(d, N/d, ...)` when
`d` divides `N`, and flattening the first two axes of every leaf then
reconstructs the original batch exactly; when `d` does not divide `N`,
`shard_batch` fails with the assertion message naming the offending size
and the device count. -/
theorem shard_batch_spec (d N : Nat) (batch : PyTree NDArray) (_hd : 0 < d)
    (hshape : ∀ x ∈ batch.leaves, ∃ rest, x.shape = N :: rest) :
    (N % d = 0 →
      ∃ sharded, shard_batch d batch = .ok sharded ∧
        (∀ y ∈ sharded.leaves, ∃ rest, y.shape = d :: (N / d) :: rest) ∧
        PyTree.map flattenFirstTwo sharded = batch) ∧
    (N % d ≠ 0 → batch.leaves ≠ [] →
      shard_batch d batch
        = .error ("Batch size needs to be divisible by # devices, got "
            ++ toString N ++ " and " ++ toString d)) := by
  constructor
  · intro hmod
    refine ⟨PyTree.map
      (fun x => ⟨d :: (x.shape.headD 0) / d :: x.shape.tail, x.data⟩) batch,
      ?_, ?_, ?_⟩
    · apply PyTree.mapE_ok_of_leaves
      intro x hx
      obtain ⟨rest, hxs⟩ := hshape x hx
      simp [shardReshapeLeaf, hxs, hmod]
    · intro y hy
      rw [PyTree.leaves_map] at hy
      obtain ⟨x, hx, rfl⟩ := List.mem_map.1 hy
      obtain ⟨rest, hxs⟩ := hshape x hx
      exact ⟨rest, by simp [hxs]⟩
    · rw [PyTree.map_map]
      apply PyTree.map_congr_leaves
      intro x hx
      obtain ⟨rest, hxs⟩ := hshape x hx
      have hdvd : d ∣ N := Nat.dvd_of_mod_eq_zero hmod
      cases x with
      | mk xshape xdata =>
        simp only at hxs
        simp [flattenFirstTwo, hxs, Nat.mul_div_cancel' hdvd]
  · intro hmod hne
    apply PyTree.mapE_error_of_leaves _ _ _ _ hne
    intro x hx
    obtain ⟨rest, hxs⟩ := hshape x hx
    simp [shardReshapeLeaf, hxs, hmod]

/-- C4 witness: a one-leaf batch of shape `(4,)` on two devices shards to
shape `(2, 2)` and flattens back to the original. -/
theorem shard_batch_spec_witness :
    0 < 2 ∧
    (∀ x ∈ exampleBatch.leaves, ∃ rest, x.shape = 4 :: rest) ∧
    ((4 % 2 = 0 →
      ∃ sharded, shard_batch 2 exampleBatch = .ok sharded ∧
        (∀ y ∈ sharded.leaves, ∃ rest, y.shape = 2 :: (4 / 2) :: rest) ∧
        PyTree.map flattenFirstTwo sharded = exampleBatch) ∧
    (4 % 2 ≠ 0 → exampleBatch.leaves ≠ [] →
      shard_batch 2 exampleBatch
        = .error ("Batch size needs to be divisible by # devices, got "
            ++ toString 4 ++ " and " ++ toString 2))) :=
  ⟨by decide,
    by
      intro x hx
      simp only [exampleBatch, PyTree.leaves, List.mem_append,
        List.mem_singleton, List.not_mem_nil, or_false] at hx
      subst hx
      exact ⟨[], rfl⟩,
    shard_batch_spec 2 4 exampleBatch (by decide)
      (by
        intro x hx
        simp only [exampleBatch, PyTree.leaves, List.mem_append,
          List.mem_singleton, List.not_mem_nil, or_false] at hx
        subst hx
        exact ⟨[], rfl⟩)⟩

/-- C9: the `info.update` step of `apply_loss_fn` with `has_aux` gives the
returned info mapping the keys `grad/max`, `grad/min` and `grad/norm`,
computed over the gradient tree as max-of-per-leaf-maxima,
min-of-per-leaf-minima, and the Euclidean norm of the vector of per-leaf
Euclidean norms, leaving every other key unchanged; consequently
`grad/max >= grad/min` and `grad/norm >= 0`. -/
theorem grad_stats_spec (g : PyTree (List ℚ)) (info : String → Option ℝ)
    (hne : g.leaves ≠ []) (_hleaf : ∀ l ∈ g.leaves, l ≠ []) :
    gradStatsUpdate g info "grad/max" = some ((final_grad_max g : ℚ) : ℝ) ∧
    gradStatsUpdate g info "grad/min" = some ((final_grad_min g : ℚ) : ℝ) ∧
    gradStatsUpdate g info "grad/norm" = some (final_grad_norm g) ∧
    (∀ k, k ≠ "grad/max" → k ≠ "grad/min" → k ≠ "grad/norm" →
      gradStatsUpdate g info k = info k) ∧
    final_grad_min g ≤ final_grad_max g ∧
    0 ≤ final_grad_norm g := by
  refine ⟨rfl, rfl, rfl, ?_, ?_, Real.sqrt_nonneg _⟩
  · intro k h1 h2 h3
    simp [gradStatsUpdate, h1, h2, h3]
  · obtain ⟨l0, hl0⟩ : ∃ l, l ∈ g.leaves := by
      cases hgl : g.leaves with
      | nil => exact absurd hgl hne
      | cons a as => exact ⟨a, by simp [hgl]⟩
    have h1 : final_grad_min g ≤ jnpMin l0 := by
      apply jnpMin_le
      rw [PyTree.leaves_map]
      exact List.mem_map_of_mem jnpMin hl0
    have h2 : jnpMax l0 ≤ final_grad_max g := by
      apply le_jnpMax
      rw [PyTree.leaves_map]
      exact List.mem_map_of_mem jnpMax hl0
    exact le_trans h1 (le_trans (jnpMin_le_jnpMax l0) h2)

/-- C9 witness: a concrete two-leaf gradient tree. -/
theorem grad_stats_spec_witness :
    exampleGradTree.leaves ≠ [] ∧
    (∀ l ∈ exampleGradTree.leaves, l ≠ []) ∧
    (gradStatsUpdate exampleGradTree (fun _ => none) "grad/max"
      = some ((final_grad_max exampleGradTree : ℚ) : ℝ) ∧
    gradStatsUpdate exampleGradTree (fun _ => none) "grad/min"
      = some ((final_grad_min exampleGradTree : ℚ) : ℝ) ∧
    gradStatsUpdate exampleGradTree (fun _ => none) "grad/norm"
      = some (final_grad_norm exampleGradTree) ∧
    (∀ k, k ≠ "grad/max" → k ≠ "grad/min" → k ≠ "grad/norm" →
      gradStatsUpdate exampleGradTree (fun _ => none) k = none) ∧
    final_grad_min exampleGradTree ≤ final_grad_max exampleGradTree ∧
    0 ≤ final_grad_norm exampleGradTree) :=
  ⟨by decide, by decide,
    grad_stats_spec exampleGradTree (fun _ => none) (by decide) (by decide)⟩

end HILP
